import Mathlib

/-!
Shallow embedding of `src/collection.js` (ice3-software/collection-js):
an array-like `Collection` with paginated loading methods `more` and
`refresh`, a `loadingState` field and a single pending promise slot
`moreQ`.

Modelling decisions (all taken from the source, not from the spec):

* The collection is array-like: `Collection.prototype = []` and elements
  are pushed with `Array.prototype.push.apply`; the observable sequence
  (indices `0 .. length-1`) is modelled as `items : List Item`.
  `this.length = 0` in `refresh` truncates that observable view.
* `loadingState` is the string field `'loading' | 'loaded' | 'failed'`,
  initially `undefined`; modelled as `Option LState` (`none` = undefined).
* `moreQ` is the pending promise created at `col.moreQ = col.query(lenBef)
  .then(...)`; the handlers close over `lenBef` and `stateBef`, so a
  pending load is modelled as an `Attempt` record holding those snapshots
  together with a future identity `fid` (a fresh number per created
  promise, standing for JS object identity of the returned promise).
* JS promise settlement is modelled by `Settled`: a promise either
  resolves with a value or rejects with an error.  `then(onFul, onRej)`
  where both handlers return plain values always yields a *resolved*
  promise (`Settled.thenBoth`); `.finally` passes the settlement through
  unchanged while running its side effect (clearing `moreQ`), which is
  folded into `Collection.settle`.
* The query function itself is external: invoking `col.query(lenBef)`
  is recorded as the issued offset, and the eventual settlement of that
  query is an input (`Settled err (List Item)`) to `Collection.settle`.
* Scheduling is single-threaded cooperative concurrency: the only
  suspension point is awaiting the query, so an execution is a sequence
  of atomic events (a `more()` call, a `refresh()` call, or the
  outstanding query settling), modelled by `Event` / `stepEv` / `run`.
-/

/-- The values of the `loadingState` string field
(`'loading' | 'loaded' | 'failed'`, line 57 of the source). -/
inductive LState : Type where
  | loading
  | loaded
  | failed
deriving DecidableEq, Repr

/-- A pending load: the data captured by the closures created at lines
97-115 of the source (`lenBef`, `stateBef`), plus `fid`, the identity of
the promise object stored in `moreQ`. -/
structure Attempt : Type where
  fid : Nat
  lenBef : Nat
  stateBef : Option LState
deriving DecidableEq, Repr

/-- The mutable state of a `Collection` instance: the array-like contents,
`loadingState`, and the `moreQ` slot (`none` when no load is outstanding).
`nextFid` is modelling bookkeeping that supplies fresh promise
identities. -/
structure Collection (Item : Type) : Type where
  items : List Item
  loadingState : Option LState
  moreQ : Option Attempt
  nextFid : Nat
deriving DecidableEq, Repr

/-- The record resolved by a successful load (lines 104-109 of the
source). -/
structure LoadResult (Item : Type) : Type where
  items : List Item
  oldLength : Nat
  newLength : Nat
  firstSuccessfulQuery : Bool
deriving DecidableEq, Repr

/-- Settlement of a JS promise: it either resolves with a value or
rejects with an error. -/
inductive Settled (ε α : Type) : Type where
  | resolved (v : α)
  | rejected (e : ε)
deriving DecidableEq, Repr

/-- JS `p.then(onFul, onRej)` where neither handler throws: the derived
promise resolves with whichever handler's return value, regardless of
whether `p` resolved or rejected. -/
def Settled.thenBoth {ε α β : Type} (s : Settled ε α) (onFul : α → β)
    (onRej : ε → β) : Settled ε β :=
  match s with
  | .resolved v => .resolved (onFul v)
  | .rejected e => .resolved (onRej e)

/-- The value carried by the settlement of the promise returned by
`more()`: the success handler returns a `LoadResult`, the failure
handler returns the error itself (line 112: `return err`). -/
inductive MoreValue (Item ε : Type) : Type where
  | result (r : LoadResult Item)
  | errVal (e : ε)
deriving DecidableEq, Repr

/-- What a call to `more()` (or `refresh()`) returns: the collection
state once the call returns, the promise handed back to the caller, and
`issued = some offset` when `col.query(offset)` was invoked by this call
(`none` when the outstanding promise was returned instead). -/
structure MoreReturn (Item : Type) : Type where
  col : Collection Item
  future : Attempt
  issued : Option Nat
deriving DecidableEq, Repr

namespace Collection

/-- `Collection.prototype.more` (lines 90-119): if `col.moreQ` is set,
return it; otherwise snapshot `lenBef = col.length` and
`stateBef = col.loadingState`, invoke `col.query(lenBef)` and store the
derived promise in `col.moreQ`. -/
def more {Item : Type} (c : Collection Item) : MoreReturn Item :=
  match c.moreQ with
  | some a => { col := c, future := a, issued := none }
  | none =>
    let lenBef := c.items.length
    let stateBef := c.loadingState
    let a : Attempt := { fid := c.nextFid, lenBef := lenBef, stateBef := stateBef }
    { col := { c with moreQ := some a, nextFid := c.nextFid + 1 },
      future := a,
      issued := some lenBef }

/-- `Collection.prototype.refresh` (lines 127-131): synchronously set
`this.length = 0` and `this.loadingState = 'loading'`, then delegate to
`more()`. -/
def refresh {Item : Type} (c : Collection Item) : MoreReturn Item :=
  more { c with items := [], loadingState := some .loading }

/-- The settlement of the promise built at lines 100-115, given the
settlement `q` of the underlying query, run against the collection state
`c` at settlement time with the closures' captured `Attempt` `a`:

* query resolved with `items`: push the items, read the new length, set
  `loadingState = 'loaded'`, and return the `LoadResult` (lines 100-109);
* query rejected with `err`: set `loadingState = 'failed'` and return
  `err` (lines 110-112);

`then` with both handlers resolves either way (`Settled.thenBoth`), and
`.finally` (lines 113-115) clears `col.moreQ` unconditionally. -/
def settle {Item ε : Type} (c : Collection Item) (a : Attempt)
    (q : Settled ε (List Item)) : Collection Item × Settled ε (MoreValue Item ε) :=
  let value : Settled ε (MoreValue Item ε) :=
    q.thenBoth
      (fun items =>
        let lenAf := (c.items ++ items).length
        .result { items := items, oldLength := a.lenBef, newLength := lenAf,
                  firstSuccessfulQuery :=
                    decide (a.stateBef = some .loading) && decide (0 < lenAf) })
      (fun err => .errVal err)
  let colAfter : Collection Item :=
    match q with
    | .resolved items =>
      { c with items := c.items ++ items, loadingState := some .loaded }
    | .rejected _ => { c with loadingState := some .failed }
  ({ colAfter with moreQ := none }, value)

/-- A freshly constructed collection before any load: `items` empty,
`loadingState` and `moreQ` both undefined (lines 36-73 with
`loadNow = false`; with `loadNow` omitted or truthy the constructor
immediately calls `refresh()`). -/
def init {Item : Type} : Collection Item :=
  { items := [], loadingState := none, moreQ := none, nextFid := 0 }

end Collection

/-- An atomic event of the single-threaded execution model: a caller
invokes `more()`, invokes `refresh()`, or the outstanding query settles
with `q` (the only suspension point is awaiting the query). -/
inductive Event (Item ε : Type) : Type where
  | callMore
  | callRefresh
  | settleQ (q : Settled ε (List Item))
deriving DecidableEq, Repr

/-- One step of execution.  A settlement event applies to the attempt
recorded in `moreQ` (at most one load is ever outstanding, since `more`
only creates a promise when `moreQ` is empty and only settlement clears
it); it emits the attempt together with the settlement of the promise
handed to callers.  A settlement event with no outstanding load cannot
occur and is a no-op. -/
def stepEv {Item ε : Type} (c : Collection Item) :
    Event Item ε → Collection Item × Option (Attempt × Settled ε (MoreValue Item ε))
  | .callMore => ((c.more).col, none)
  | .callRefresh => ((c.refresh).col, none)
  | .settleQ q =>
    match c.moreQ with
    | some a =>
      let s := c.settle a q
      (s.1, some (a, s.2))
    | none => (c, none)

/-- Run a sequence of events, collecting the settlements observed by
callers. -/
def run {Item ε : Type} (c : Collection Item) :
    List (Event Item ε) → Collection Item × List (Attempt × Settled ε (MoreValue Item ε))
  | [] => (c, [])
  | e :: es =>
    let s := stepEv c e
    let r := run s.1 es
    (r.1, s.2.toList ++ r.2)

/-- Collection states reachable from a fresh collection by some sequence
of events. -/
inductive Reachable {Item ε : Type} : Collection Item → Prop where
  | init : Reachable Collection.init
  | step (c : Collection Item) (e : Event Item ε) : Reachable c → Reachable (stepEv c e).1

/-- State invariant maintained by every event: while `loadingState` is
`'loading'` a load is outstanding, and an outstanding attempt whose
snapshot `stateBef` is `'loading'` was begun by a `refresh()` on the
just-emptied collection, so its `lenBef` is `0` and the items are still
empty. -/
def GoodState {Item : Type} (c : Collection Item) : Prop :=
  (c.loadingState = some LState.loading → c.moreQ ≠ none) ∧
  (∀ a, c.moreQ = some a → a.stateBef = some LState.loading →
    a.lenBef = 0 ∧ c.items = [])

/-- A collection is out of any refresh window when its `loadingState` is
not `'loading'` and no outstanding attempt snapshotted `'loading'`: this
holds right after a load settles and is kept by every event except
`refresh()`. -/
def NoLoadingSnap {Item : Type} (c : Collection Item) : Prop :=
  c.loadingState ≠ some LState.loading ∧
  ∀ a, c.moreQ = some a → a.stateBef ≠ some LState.loading

/-! ## Basic step lemmas -/

theorem more_items_eq {Item : Type} (c : Collection Item) :
    (c.more).col.items = c.items := by
  unfold Collection.more
  cases c.moreQ <;> rfl

theorem more_loadingState_eq {Item : Type} (c : Collection Item) :
    (c.more).col.loadingState = c.loadingState := by
  unfold Collection.more
  cases c.moreQ <;> rfl

theorem more_of_pending {Item : Type} (c : Collection Item) (a : Attempt)
    (h : c.moreQ = some a) :
    c.more = { col := c, future := a, issued := none } := by
  unfold Collection.more
  rw [h]

theorem more_of_fresh {Item : Type} (c : Collection Item) (h : c.moreQ = none) :
    c.more =
      { col := { c with moreQ := some ⟨c.nextFid, c.items.length, c.loadingState⟩,
                        nextFid := c.nextFid + 1 },
        future := ⟨c.nextFid, c.items.length, c.loadingState⟩,
        issued := some c.items.length } := by
  unfold Collection.more
  rw [h]

theorem settle_resolved {Item ε : Type} (c : Collection Item) (a : Attempt)
    (its : List Item) :
    c.settle (ε := ε) a (Settled.resolved its) =
      ({ c with items := c.items ++ its, loadingState := some LState.loaded,
                moreQ := none },
       Settled.resolved (MoreValue.result
         { items := its, oldLength := a.lenBef, newLength := (c.items ++ its).length,
           firstSuccessfulQuery :=
             decide (a.stateBef = some LState.loading) &&
               decide (0 < (c.items ++ its).length) })) := by
  rfl

theorem settle_rejected {Item ε : Type} (c : Collection Item) (a : Attempt) (e : ε) :
    c.settle a (Settled.rejected e) =
      ({ c with loadingState := some LState.failed, moreQ := none },
       Settled.resolved (MoreValue.errVal e)) := by
  rfl

/-! ## Claim theorems -/

/-- C1: Single-flight: a `more()` call made while a load is outstanding
(`moreQ` set to attempt `a`) returns that same outstanding future,
issues no new query, and leaves the collection unchanged; consequently
every coalesced caller observes the settlement of the one underlying
attempt, i.e. the identical `LoadResult` (same `items`, `oldLength`,
`newLength`). -/
theorem single_flight {Item ε : Type} (c : Collection Item) (a : Attempt)
    (h : c.moreQ = some a) :
    c.more = { col := c, future := a, issued := none } ∧
    ∀ q : Settled ε (List Item),
      (c.more).col.settle ((c.more).future) q = c.settle a q := by
  have hm := more_of_pending c a h
  exact ⟨hm, fun q => by rw [hm]⟩

/-- Witness for C1 at a concrete pending collection. -/
theorem single_flight_witness :
    (⟨[1, 2], some LState.loaded, some ⟨0, 2, some LState.loaded⟩, 1⟩ :
        Collection Nat).more =
      { col := ⟨[1, 2], some LState.loaded, some ⟨0, 2, some LState.loaded⟩, 1⟩,
        future := ⟨0, 2, some LState.loaded⟩, issued := none } :=
  (single_flight (ε := Nat)
    (⟨[1, 2], some LState.loaded, some ⟨0, 2, some LState.loaded⟩, 1⟩ : Collection Nat)
    ⟨0, 2, some LState.loaded⟩ rfl).1

/-- C2: a fresh `more()` call (no load outstanding) snapshots
`lenBef = items.length` and `stateBef = loadingState`, invokes
`query(lenBef)`, and on success appends the returned items in order,
sets `loadingState = 'loaded'`, and resolves with a `LoadResult` whose
`items` are the new items, `oldLength` is the snapshot, `newLength` is
the length after the append, and `firstSuccessfulQuery` is
`stateBef == 'loading' && newLength > 0`. -/
theorem more_fresh_success {Item ε : Type} (c : Collection Item)
    (newItems : List Item) (h : c.moreQ = none) :
    (c.more).issued = some c.items.length ∧
    ((c.more).col.settle (ε := ε) (c.more).future (Settled.resolved newItems)).1.items
        = c.items ++ newItems ∧
    ((c.more).col.settle (ε := ε) (c.more).future (Settled.resolved newItems)).1.loadingState
        = some LState.loaded ∧
    ((c.more).col.settle (ε := ε) (c.more).future (Settled.resolved newItems)).2
        = Settled.resolved (MoreValue.result
            { items := newItems, oldLength := c.items.length,
              newLength := (c.items ++ newItems).length,
              firstSuccessfulQuery :=
                decide (c.loadingState = some LState.loading) &&
                  decide (0 < (c.items ++ newItems).length) }) := by
  rw [more_of_fresh c h]
  exact ⟨rfl, rfl, rfl, rfl⟩

/-- Witness for C2 at a fresh collection receiving two items. -/
theorem more_fresh_success_witness :
    (Collection.init : Collection Nat).more.issued = some 0 ∧
    ((Collection.init : Collection Nat).more.col.settle (ε := Nat)
        (Collection.init : Collection Nat).more.future (Settled.resolved [3, 4])).1.items
      = [3, 4] := by
  have h := more_fresh_success (ε := Nat) (Collection.init : Collection Nat) [3, 4] rfl
  exact ⟨h.1, h.2.1⟩

/-- C3: failure-as-value: when the query rejects with `err`, the future
returned by `more()`/`refresh()` settles as *resolved* (not rejected)
with `err` itself as the resolved value, and `loadingState` is set to
`'failed'`. -/
theorem failure_as_value {Item ε : Type} (c : Collection Item) (a : Attempt)
    (e : ε) :
    (c.settle a (Settled.rejected e)).2 = Settled.resolved (MoreValue.errVal e) ∧
    (c.settle a (Settled.rejected e)).1.loadingState = some LState.failed :=
  ⟨rfl, rfl⟩

/-- C5: `refresh()` from any state leaves `items` empty and
`loadingState = 'loading'` synchronously upon return, before the query
settles. -/
theorem refresh_sync_reset {Item : Type} (c : Collection Item) :
    (c.refresh).col.items = [] ∧
    (c.refresh).col.loadingState = some LState.loading := by
  unfold Collection.refresh
  exact ⟨by rw [more_items_eq], by rw [more_loadingState_eq]⟩

/-- C7: regardless of outcome, once a load attempt settles `moreQ` is
cleared to empty, so a subsequent `more()` call starts a fresh attempt
and issues a new query (at the then-current length). -/
theorem settle_clears_pending {Item ε : Type} (c : Collection Item) (a : Attempt)
    (q : Settled ε (List Item)) :
    (c.settle a q).1.moreQ = none ∧
    ((c.settle a q).1.more).issued = some ((c.settle a q).1.items.length) := by
  have h1 : (c.settle a q).1.moreQ = none := rfl
  exact ⟨h1, by rw [more_of_fresh _ h1]⟩

/-! ## State invariants -/

theorem goodState_init {Item : Type} : GoodState (Collection.init : Collection Item) :=
  ⟨fun h => (nomatch h), fun _ ha => (nomatch ha)⟩

theorem goodState_step {Item ε : Type} (c : Collection Item) (e : Event Item ε)
    (hg : GoodState c) : GoodState (stepEv c e).1 := by
  obtain ⟨h1, h2⟩ := hg
  cases e with
  | callMore =>
    show GoodState (c.more).col
    cases hmq : c.moreQ with
    | some a =>
      rw [more_of_pending c a hmq]
      exact ⟨h1, h2⟩
    | none =>
      rw [more_of_fresh c hmq]
      constructor
      · intro _
        simp
      · intro a ha hs
        simp only at ha
        injection ha with ha
        subst ha
        exact absurd hmq (h1 hs)
  | callRefresh =>
    show GoodState (c.refresh).col
    unfold Collection.refresh
    cases hmq : c.moreQ with
    | some a =>
      rw [more_of_pending _ a (show Collection.moreQ
        { items := ([] : List Item), loadingState := some LState.loading,
          moreQ := some a, nextFid := c.nextFid } = some a from rfl)]
      constructor
      · intro _
        simp
      · intro b hb hs
        simp only at hb
        injection hb with hb
        subst hb
        exact ⟨(h2 a hmq hs).1, rfl⟩
    | none =>
      rw [more_of_fresh _ (show Collection.moreQ
        { items := ([] : List Item), loadingState := some LState.loading,
          moreQ := none, nextFid := c.nextFid } = none from rfl)]
      constructor
      · intro _
        simp
      · intro b hb _
        simp only at hb
        injection hb with hb
        subst hb
        exact ⟨rfl, rfl⟩
  | settleQ q =>
    simp only [stepEv]
    cases hmq : c.moreQ with
    | none => exact ⟨h1, h2⟩
    | some a =>
      show GoodState (c.settle a q).1
      cases q with
      | resolved its =>
        rw [settle_resolved]
        exact ⟨fun h => (nomatch h), fun _ hb => (nomatch hb)⟩
      | rejected e =>
        rw [settle_rejected]
        exact ⟨fun h => (nomatch h), fun _ hb => (nomatch hb)⟩

theorem reachable_goodState {Item ε : Type} (c : Collection Item)
    (h : Reachable (ε := ε) c) : GoodState c := by
  induction h with
  | init => exact goodState_init
  | step c e _ ih => exact goodState_step c e ih

/-- C4 counterexample: from the reachable state reached by
`refresh(); <query resolves [5]>` (so `loadingState = 'loaded'`,
`moreQ` empty), a fresh `more()` call leaves `loadingState` at
`'loaded'` — it does not transition it to `'loading'` — even though a
fresh, unsettled attempt is now pending; so `loadingState` is not
`'loading'` while this fresh attempt is outstanding. -/
theorem loadMore_no_loading_cex :
    (run (Collection.init : Collection Nat)
        ([Event.callRefresh, Event.settleQ (Settled.resolved [5])] :
          List (Event Nat Nat))).1.loadingState = some LState.loaded ∧
    (run (Collection.init : Collection Nat)
        ([Event.callRefresh, Event.settleQ (Settled.resolved [5])] :
          List (Event Nat Nat))).1.moreQ = none ∧
    (run (Collection.init : Collection Nat)
        ([Event.callRefresh, Event.settleQ (Settled.resolved [5]),
          Event.callMore] : List (Event Nat Nat))).1.loadingState
      = some LState.loaded ∧
    (run (Collection.init : Collection Nat)
        ([Event.callRefresh, Event.settleQ (Settled.resolved [5]),
          Event.callMore] : List (Event Nat Nat))).1.moreQ ≠ none := by
  decide

/-- C4 (amended): `more()` never changes `loadingState`; `loadingState`
becomes `'loading'` only synchronously in `refresh()`, and a settling
attempt sets it to `'loaded'` on success and `'failed'` on failure.
Hence from `'loaded'` or `'failed'` it is `refresh()`, not `more()`,
that transitions the state back to `'loading'`; and in every reachable
state, while `loadingState` is `'loading'` a load is outstanding. -/
theorem loadingState_transitions {Item ε : Type} :
    (∀ c : Collection Item, (c.more).col.loadingState = c.loadingState) ∧
    (∀ c : Collection Item, (c.refresh).col.loadingState = some LState.loading) ∧
    (∀ (c : Collection Item) (a : Attempt) (its : List Item),
      (c.settle (ε := ε) a (Settled.resolved its)).1.loadingState = some LState.loaded) ∧
    (∀ (c : Collection Item) (a : Attempt) (e : ε),
      (c.settle a (Settled.rejected e)).1.loadingState = some LState.failed) ∧
    (∀ c : Collection Item, Reachable (ε := ε) c →
      c.loadingState = some LState.loading → c.moreQ ≠ none) := by
  refine ⟨more_loadingState_eq, ?_, fun c a its => rfl, fun c a e => rfl, ?_⟩
  · intro c
    unfold Collection.refresh
    rw [more_loadingState_eq]
  · intro c hr hl
    exact (reachable_goodState c hr).1 hl

/-- Witness for C4 (amended) at the reachable state right after a
`refresh()` from a fresh collection. -/
theorem loadingState_transitions_witness :
    (run (Collection.init : Collection Nat)
        ([Event.callRefresh] : List (Event Nat Nat))).1.moreQ ≠ none :=
  (@loadingState_transitions Nat Nat).2.2.2.2 _
    (Reachable.step Collection.init Event.callRefresh Reachable.init) (by decide)

/-- C6 counterexample: in the reachable state after
`refresh(); <query resolves [5, 6]>; more()` a load is outstanding
(attempt with `lenBef = 2`, `stateBef = 'loaded'`).  Calling `refresh()`
there issues no query at all (in particular not `query(0)`), and the
`moreQ` slot still holds that same prior attempt afterwards — it is not
overwritten by any new attempt's bookkeeping. -/
theorem refresh_overwrite_cex :
    (run (Collection.init : Collection Nat)
        ([Event.callRefresh, Event.settleQ (Settled.resolved [5, 6]),
          Event.callMore] : List (Event Nat Nat))).1.moreQ
      = some ⟨1, 2, some LState.loaded⟩ ∧
    ((run (Collection.init : Collection Nat)
        ([Event.callRefresh, Event.settleQ (Settled.resolved [5, 6]),
          Event.callMore] : List (Event Nat Nat))).1.refresh).issued = none ∧
    ((run (Collection.init : Collection Nat)
        ([Event.callRefresh, Event.settleQ (Settled.resolved [5, 6]),
          Event.callMore] : List (Event Nat Nat))).1.refresh).future
      = ⟨1, 2, some LState.loaded⟩ ∧
    ((run (Collection.init : Collection Nat)
        ([Event.callRefresh, Event.settleQ (Settled.resolved [5, 6]),
          Event.callMore] : List (Event Nat Nat))).1.refresh).col.moreQ
      = some ⟨1, 2, some LState.loaded⟩ := by
  decide

/-- C6 (amended): `refresh()` delegates to `more()` after the reset.
When no load is outstanding, the delegated call issues `query(0)` (the
just-reset length).  When a load is already outstanding, no new query is
issued and no new bookkeeping is installed: the prior attempt's future
is returned and `moreQ` still holds that prior attempt, which completes
independently. -/
theorem refresh_delegation {Item : Type} (c : Collection Item) :
    (c.moreQ = none → (c.refresh).issued = some 0) ∧
    (∀ a : Attempt, c.moreQ = some a →
      (c.refresh).issued = none ∧ (c.refresh).future = a ∧
      (c.refresh).col = { c with items := [], loadingState := some LState.loading }) := by
  constructor
  · intro h
    unfold Collection.refresh
    rw [more_of_fresh _ (show Collection.moreQ
      { c with items := [], loadingState := some LState.loading } = none from h)]
    rfl
  · intro a h
    unfold Collection.refresh
    rw [more_of_pending _ a (show Collection.moreQ
      { c with items := [], loadingState := some LState.loading } = some a from h)]
    exact ⟨rfl, rfl, rfl⟩

/-- Witness for C6 (amended): both the fresh and the outstanding case at
concrete collections. -/
theorem refresh_delegation_witness :
    ((Collection.init : Collection Nat).refresh).issued = some 0 ∧
    ((⟨[9], some LState.loaded, some ⟨0, 1, some LState.loaded⟩, 1⟩ :
        Collection Nat).refresh).future = ⟨0, 1, some LState.loaded⟩ := by
  constructor
  · exact (refresh_delegation (Collection.init : Collection Nat)).1 rfl
  · exact ((refresh_delegation
      (⟨[9], some LState.loaded, some ⟨0, 1, some LState.loaded⟩, 1⟩ :
        Collection Nat)).2 ⟨0, 1, some LState.loaded⟩ rfl).2.1

/-- C10: `refresh()` called while a prior attempt is outstanding issues
no new query and returns that same outstanding future unchanged; the
collection is emptied synchronously, and when the prior attempt settles
successfully its batch is appended to the just-emptied collection while
its `LoadResult` is computed from the pre-refresh snapshots: `oldLength`
is the pre-refresh length (`lenBef`), not `0`. -/
theorem refresh_during_load {Item ε : Type} (c : Collection Item) (a : Attempt)
    (its : List Item) (h : c.moreQ = some a) (hl : a.lenBef = c.items.length) :
    (c.refresh).issued = none ∧
    (c.refresh).future = a ∧
    (c.refresh).col.items = [] ∧
    ((c.refresh).col.settle (ε := ε) a (Settled.resolved its)).1.items = its ∧
    ((c.refresh).col.settle (ε := ε) a (Settled.resolved its)).2
      = Settled.resolved (MoreValue.result
          { items := its, oldLength := c.items.length, newLength := its.length,
            firstSuccessfulQuery :=
              decide (a.stateBef = some LState.loading) &&
                decide (0 < its.length) }) := by
  unfold Collection.refresh
  rw [more_of_pending _ a (show Collection.moreQ
    { c with items := [], loadingState := some LState.loading } = some a from h)]
  refine ⟨rfl, rfl, rfl, ?_, ?_⟩
  · rw [settle_resolved]
    simp
  · rw [settle_resolved]
    simp [hl]

/-- Witness for C10: refresh during an outstanding load whose snapshot
length matches the pre-refresh length. -/
theorem refresh_during_load_witness :
    ((⟨[7], some LState.loaded, some ⟨0, 1, some LState.loaded⟩, 1⟩ :
        Collection Nat).refresh.col.settle (ε := Nat)
      ⟨0, 1, some LState.loaded⟩ (Settled.resolved [8])).1.items = [8] :=
  (refresh_during_load
    (⟨[7], some LState.loaded, some ⟨0, 1, some LState.loaded⟩, 1⟩ : Collection Nat)
    ⟨0, 1, some LState.loaded⟩ [8] rfl rfl).2.2.2.1

/-! ## Refresh-free runs -/

theorem run_cons {Item ε : Type} (c : Collection Item) (e : Event Item ε)
    (es : List (Event Item ε)) :
    run c (e :: es) =
      ((run (stepEv c e).1 es).1,
        (stepEv c e).2.toList ++ (run (stepEv c e).1 es).2) := rfl

theorem stepEv_no_refresh_extends {Item ε : Type} (c : Collection Item)
    (e : Event Item ε) (he : e ≠ Event.callRefresh) :
    c.items <+: (stepEv c e).1.items := by
  cases e with
  | callMore =>
    show c.items <+: (c.more).col.items
    rw [more_items_eq]
  | callRefresh => exact absurd rfl he
  | settleQ q =>
    simp only [stepEv]
    cases hmq : c.moreQ with
    | none => exact List.prefix_refl _
    | some a =>
      show c.items <+: (c.settle a q).1.items
      cases q with
      | resolved its =>
        rw [settle_resolved]
        exact List.prefix_append _ _
      | rejected e' =>
        rw [settle_rejected]

theorem run_no_refresh_extends {Item ε : Type} (c : Collection Item)
    (es : List (Event Item ε)) (h : Event.callRefresh ∉ es) :
    c.items <+: (run c es).1.items := by
  induction es generalizing c with
  | nil => exact List.prefix_refl _
  | cons e es ih =>
    have he : e ≠ Event.callRefresh := fun heq => h (heq ▸ List.mem_cons_self e es)
    have hes : Event.callRefresh ∉ es := fun hm => h (List.mem_cons_of_mem e hm)
    rw [run_cons]
    exact (stepEv_no_refresh_extends c e he).trans (ih (stepEv c e).1 hes)

theorem noLoadingSnap_step {Item ε : Type} (c : Collection Item) (e : Event Item ε)
    (hc : NoLoadingSnap c) (he : e ≠ Event.callRefresh) :
    NoLoadingSnap (stepEv c e).1 := by
  obtain ⟨h1, h2⟩ := hc
  cases e with
  | callMore =>
    show NoLoadingSnap (c.more).col
    cases hmq : c.moreQ with
    | some a =>
      rw [more_of_pending c a hmq]
      exact ⟨h1, h2⟩
    | none =>
      rw [more_of_fresh c hmq]
      constructor
      · exact h1
      · intro b hb
        simp only at hb
        injection hb with hb
        subst hb
        exact h1
  | callRefresh => exact absurd rfl he
  | settleQ q =>
    simp only [stepEv]
    cases hmq : c.moreQ with
    | none => exact ⟨h1, h2⟩
    | some a =>
      show NoLoadingSnap (c.settle a q).1
      cases q with
      | resolved its =>
        rw [settle_resolved]
        exact ⟨fun h => (nomatch h), fun _ hb => (nomatch hb)⟩
      | rejected e' =>
        rw [settle_rejected]
        exact ⟨fun h => (nomatch h), fun _ hb => (nomatch hb)⟩

theorem run_no_refresh_flags {Item ε : Type} (c : Collection Item)
    (es : List (Event Item ε)) (hc : NoLoadingSnap c)
    (h : Event.callRefresh ∉ es) :
    ∀ p ∈ (run c es).2, ∀ r : LoadResult Item,
      p.2 = Settled.resolved (MoreValue.result r) →
      r.firstSuccessfulQuery = false := by
  induction es generalizing c with
  | nil =>
    intro p hp
    cases hp
  | cons e es ih =>
    have he : e ≠ Event.callRefresh := fun heq => h (heq ▸ List.mem_cons_self e es)
    have hes : Event.callRefresh ∉ es := fun hm => h (List.mem_cons_of_mem e hm)
    intro p hp r hr
    rw [run_cons] at hp
    rcases List.mem_append.mp hp with hp1 | hp2
    · cases e with
      | callMore => cases hp1
      | callRefresh => exact absurd rfl he
      | settleQ q =>
        revert hp1
        simp only [stepEv]
        cases hmq : c.moreQ with
        | none => intro hp1; cases hp1
        | some a =>
          intro hp1
          have hp1' : p = (a, (c.settle a q).2) := by
            simpa using hp1
          cases q with
          | resolved its =>
            rw [hp1'] at hr
            rw [settle_resolved] at hr
            simp only at hr
            injection hr with hr
            injection hr with hr
            rw [← hr]
            simp [decide_eq_false (hc.2 a hmq)]
          | rejected e' =>
            rw [hp1'] at hr
            rw [settle_rejected] at hr
            simp only at hr
            injection hr with hr
            cases hr
    · exact ih (stepEv c e).1 (noLoadingSnap_step c e hc he) hes p hp2 r hr

/-- C9: `items` is mutated only by appends driven by successful loads or
by truncation to empty on `refresh()`: a `more()` call leaves `items`
unchanged, `refresh()` empties it, a successful settlement appends the
batch in order, a failed settlement leaves `items` unchanged; and over
any refresh-free event sequence the current `items` stay a prefix of the
later `items`, so `items.length` grows monotonically between one refresh
and the next. -/
theorem items_mutation {Item ε : Type} :
    (∀ c : Collection Item, (c.more).col.items = c.items) ∧
    (∀ c : Collection Item, (c.refresh).col.items = []) ∧
    (∀ (c : Collection Item) (a : Attempt) (its : List Item),
      (c.settle (ε := ε) a (Settled.resolved its)).1.items = c.items ++ its) ∧
    (∀ (c : Collection Item) (a : Attempt) (e : ε),
      (c.settle a (Settled.rejected e)).1.items = c.items) ∧
    (∀ (c : Collection Item) (es : List (Event Item ε)),
      Event.callRefresh ∉ es →
      c.items <+: (run c es).1.items ∧
        c.items.length ≤ (run c es).1.items.length) := by
  refine ⟨more_items_eq, ?_, fun c a its => rfl, fun c a e => rfl, ?_⟩
  · intro c
    unfold Collection.refresh
    rw [more_items_eq]
  · intro c es h
    have hp := run_no_refresh_extends c es h
    exact ⟨hp, hp.length_le⟩

/-- Witness for C9 at a concrete refresh-free event sequence. -/
theorem items_mutation_witness :
    (⟨[5], some LState.loaded, none, 1⟩ : Collection Nat).items <+:
      (run (⟨[5], some LState.loaded, none, 1⟩ : Collection Nat)
        ([Event.callMore, Event.settleQ (Settled.resolved [6])] :
          List (Event Nat Nat))).1.items :=
  ((@items_mutation Nat Nat).2.2.2.2
    (⟨[5], some LState.loaded, none, 1⟩ : Collection Nat)
    ([Event.callMore, Event.settleQ (Settled.resolved [6])] :
      List (Event Nat Nat)) (by decide)).1

/-- C8 counterexample: starting from a fresh collection, run
`refresh(); <query rejects 7>; more(); <query resolves [5]>`.  The trace
contains exactly one `refresh()` and the second settlement is the first
*successful* load following it, yielding `newLength = 1 > 0`; yet its
`firstSuccessfulQuery` is `false`, because that attempt's snapshotted
state was `'failed'`, not `'loading'`. -/
theorem firstSuccessfulQuery_cex :
    (run (Collection.init : Collection Nat)
        ([Event.callRefresh, Event.settleQ (Settled.rejected 7),
          Event.callMore, Event.settleQ (Settled.resolved [5])] :
          List (Event Nat Nat))).2
      = [(⟨0, 0, some LState.loading⟩, Settled.resolved (MoreValue.errVal 7)),
         (⟨1, 0, some LState.failed⟩, Settled.resolved (MoreValue.result
           { items := [5], oldLength := 0, newLength := 1,
             firstSuccessfulQuery := false }))] := by
  decide

/-- C8 (amended): `firstSuccessfulQuery` is `true` exactly for a
successful load whose snapshotted state was `'loading'` — that is, the
attempt begun by a `refresh()` — and which yields `newLength > 0`; if
the refresh's own attempt fails, the next successful load snapshots
`'failed'` and the flag stays `false`.  Concretely: (1) the attempt that
a `refresh()` begins on a quiescent collection resolves with
`firstSuccessfulQuery = true` whenever it yields at least one item;
(2) a successful load whose snapshot is not `'loading'` carries `false`;
(3) in any reachable state, a load yielding zero items carries `false`;
(4) after a successful load the state is out of the refresh window, and
(5) from any such state, every successful load settled during a
refresh-free event sequence carries `false`. -/
theorem firstSuccessfulQuery_lifecycle {Item ε : Type} :
    (∀ (c : Collection Item) (its : List Item), c.moreQ = none → its ≠ [] →
      ((c.refresh).col.settle (ε := ε) (c.refresh).future (Settled.resolved its)).2
        = Settled.resolved (MoreValue.result
            { items := its, oldLength := 0, newLength := its.length,
              firstSuccessfulQuery := true })) ∧
    (∀ (c : Collection Item) (a : Attempt) (its : List Item),
      a.stateBef ≠ some LState.loading →
      (c.settle (ε := ε) a (Settled.resolved its)).2
        = Settled.resolved (MoreValue.result
            { items := its, oldLength := a.lenBef,
              newLength := (c.items ++ its).length,
              firstSuccessfulQuery := false })) ∧
    (∀ (c : Collection Item) (a : Attempt),
      Reachable (ε := ε) c → c.moreQ = some a →
      (c.settle (ε := ε) a (Settled.resolved ([] : List Item))).2
        = Settled.resolved (MoreValue.result
            { items := [], oldLength := a.lenBef, newLength := c.items.length,
              firstSuccessfulQuery := false })) ∧
    (∀ (c : Collection Item) (a : Attempt) (its : List Item),
      NoLoadingSnap ((c.settle (ε := ε) a (Settled.resolved its)).1)) ∧
    (∀ (c : Collection Item) (es : List (Event Item ε)), NoLoadingSnap c →
      Event.callRefresh ∉ es →
      ∀ p ∈ (run c es).2, ∀ r : LoadResult Item,
        p.2 = Settled.resolved (MoreValue.result r) →
        r.firstSuccessfulQuery = false) := by
  refine ⟨?_, ?_, ?_, ?_, ?_⟩
  · intro c its h hne
    unfold Collection.refresh
    rw [more_of_fresh _ (show Collection.moreQ
      { c with items := [], loadingState := some LState.loading } = none from h)]
    rw [settle_resolved]
    simp [List.length_pos.mpr hne]
  · intro c a its h
    rw [settle_resolved]
    simp [decide_eq_false h]
  · intro c a hr hmq
    have hg := reachable_goodState c hr
    by_cases hs : a.stateBef = some LState.loading
    · obtain ⟨hlen, hitems⟩ := hg.2 a hmq hs
      rw [settle_resolved]
      simp [hitems]
    · rw [settle_resolved]
      simp [decide_eq_false hs]
  · intro c a its
    rw [show (c.settle (ε := ε) a (Settled.resolved its)).1
        = { c with items := c.items ++ its, loadingState := some LState.loaded,
                   moreQ := none } from congrArg Prod.fst (settle_resolved c a its)]
    exact ⟨fun h => (nomatch h), fun _ hb => (nomatch hb)⟩
  · intro c es hc h
    exact run_no_refresh_flags c es hc h

/-- Witness for C8 (amended): all five conjuncts at concrete inputs:
the refresh-begun attempt from a fresh collection resolving `[5]`; a
`'loaded'`-snapshot attempt; a zero-item load in the reachable state
right after `refresh()`; the state after a successful settlement; and
a refresh-free sequence `more(); <query resolves [6]>` from a
post-success state. -/
theorem firstSuccessfulQuery_lifecycle_witness :
    (((Collection.init : Collection Nat).refresh.col.settle (ε := Nat)
        (Collection.init : Collection Nat).refresh.future (Settled.resolved [5])).2
      = Settled.resolved (MoreValue.result
          { items := [5], oldLength := 0, newLength := 1,
            firstSuccessfulQuery := true })) ∧
    (((⟨[1], some LState.loaded, none, 0⟩ : Collection Nat).settle (ε := Nat)
        ⟨0, 1, some LState.loaded⟩ (Settled.resolved [2])).2
      = Settled.resolved (MoreValue.result
          { items := [2], oldLength := 1, newLength := 2,
            firstSuccessfulQuery := false })) ∧
    (((run (Collection.init : Collection Nat)
          ([Event.callRefresh] : List (Event Nat Nat))).1.settle (ε := Nat)
        ⟨0, 0, some LState.loading⟩ (Settled.resolved ([] : List Nat))).2
      = Settled.resolved (MoreValue.result
          { items := [], oldLength := 0, newLength := 0,
            firstSuccessfulQuery := false })) ∧
    NoLoadingSnap (((⟨[], none, none, 0⟩ : Collection Nat).settle (ε := Nat)
      ⟨0, 0, none⟩ (Settled.resolved [1])).1) ∧
    (({ items := [6], oldLength := 1, newLength := 2,
        firstSuccessfulQuery := false } : LoadResult Nat).firstSuccessfulQuery
      = false) := by
  refine ⟨?_, ?_, ?_, ?_, ?_⟩
  · exact (@firstSuccessfulQuery_lifecycle Nat Nat).1
      (Collection.init : Collection Nat) [5] rfl (by decide)
  · exact (@firstSuccessfulQuery_lifecycle Nat Nat).2.1
      (⟨[1], some LState.loaded, none, 0⟩ : Collection Nat)
      ⟨0, 1, some LState.loaded⟩ [2] (by decide)
  · exact (@firstSuccessfulQuery_lifecycle Nat Nat).2.2.1
      (run (Collection.init : Collection Nat)
        ([Event.callRefresh] : List (Event Nat Nat))).1
      ⟨0, 0, some LState.loading⟩
      (Reachable.step Collection.init Event.callRefresh Reachable.init) rfl
  · exact (@firstSuccessfulQuery_lifecycle Nat Nat).2.2.2.1
      (⟨[], none, none, 0⟩ : Collection Nat) ⟨0, 0, none⟩ [1]
  · exact (@firstSuccessfulQuery_lifecycle Nat Nat).2.2.2.2
      (⟨[5], some LState.loaded, none, 1⟩ : Collection Nat)
      ([Event.callMore, Event.settleQ (Settled.resolved [6])] :
        List (Event Nat Nat))
      ⟨by decide, fun a ha => (nomatch ha)⟩ (by decide)
      (⟨1, 1, some LState.loaded⟩, Settled.resolved (MoreValue.result
        { items := [6], oldLength := 1, newLength := 2,
          firstSuccessfulQuery := false })) (by decide)
      { items := [6], oldLength := 1, newLength := 2,
        firstSuccessfulQuery := false } rfl
